import Mathlib

/-!
Shallow embedding of the addressing / configuration-assembly core of
`main.py` (functions `generate_31_subnets`,
`generate_frrouter_addressing_info`, and the configuration-assembly and
deployment steps of `main`).

IPv4 addresses are modelled as natural numbers; an `ipaddress.ip_network`
value is a pair of a (network) address and a prefix length.  Python errors
(`ValueError`, `IndexError`, `KeyError`) are modelled with an error type and
`Except`.  The insertion-ordered Python `dict` mapping router names to lists
of configuration lines is modelled as an association list.
-/

set_option autoImplicit false

/-- An `ipaddress.IPv4Network`: network address (as a natural number) plus
prefix length. -/
structure IPv4Network where
  addr : Nat
  prefixLen : Nat
deriving DecidableEq

/-- The Python exceptions the embedded code can raise. -/
inductive PyError where
  | valueError (msg : String)
  | indexError
  | keyError (k : String)
deriving DecidableEq

instance {ε α : Type _} [DecidableEq ε] [DecidableEq α] : DecidableEq (Except ε α) :=
  fun x y =>
  match x, y with
  | .error a, .error b =>
    if h : a = b then isTrue (congrArg Except.error h)
    else isFalse (fun hh => h (Except.error.inj hh))
  | .error _, .ok _ => isFalse (fun hh => Except.noConfusion hh)
  | .ok _, .error _ => isFalse (fun hh => Except.noConfusion hh)
  | .ok a, .ok b =>
    if h : a = b then isTrue (congrArg Except.ok h)
    else isFalse (fun hh => h (Except.ok.inj hh))

/-- The set of addresses covered by a network: `[addr, addr + 2^(32-p))`. -/
def memBlock (n : IPv4Network) (a : Nat) : Prop :=
  n.addr ≤ a ∧ a < n.addr + 2 ^ (32 - n.prefixLen)

instance (n : IPv4Network) (a : Nat) : Decidable (memBlock n a) := by
  unfold memBlock; infer_instance

/-- `main.py` line 8: `generate_31_subnets(parent_prefix)`.  Raises
`ValueError` when `31 <= network.prefixlen`; otherwise returns the list
`[subnet for subnet in network.subnets(new_prefix=31)]`, i.e. the /31
subnetworks of the parent in increasing address order, each of size 2. -/
def generate_31_subnets (network : IPv4Network) : Except PyError (List IPv4Network) :=
  if 31 ≤ network.prefixLen then
    .error (.valueError "New prefix length /31 should be larger than parent prefix length.")
  else
    .ok ((List.range (2 ^ (31 - network.prefixLen))).map
      (fun i => ⟨network.addr + 2 * i, 31⟩))

/-- Rendering of an IPv4 address as a dotted quad, as Python's
`str(IPv4Address)` does in the f-strings of lines 49 and 55. -/
def ipToString (a : Nat) : String :=
  toString (a / 16777216 % 256) ++ "." ++ toString (a / 65536 % 256) ++ "." ++
    toString (a / 256 % 256) ++ "." ++ toString (a % 256)

/-- Python `str.split(sep)` over the character list of a string: every
occurrence of the separator splits (adjacent separators give empty parts,
the empty string gives one empty part). -/
def splitCharAux (sep : Char) : List Char → List Char → List (List Char)
  | [], acc => [acc.reverse]
  | c :: cs, acc =>
    if c = sep then acc.reverse :: splitCharAux sep cs []
    else splitCharAux sep cs (c :: acc)

/-- Python `e.split(':')` followed by unpacking into exactly two variables
(lines 38-39): any number of parts other than two raises `ValueError`. -/
def splitColon (e : String) : Except PyError (String × String) :=
  match (splitCharAux ':' e.toList []).map (fun l => String.mk l) with
  | [r, i] => .ok (r, i)
  | _ => .error (.valueError "not enough or too many values to unpack")

/-- Python `a_ip, b_ip = s.hosts()` (line 42): for a /31 network `hosts()`
yields exactly the two addresses of the block; for a /30 it yields the two
interior addresses; for any other prefix length the two-variable unpacking
raises `ValueError`. -/
def hostsPair (s : IPv4Network) : Except PyError (Nat × Nat) :=
  if s.prefixLen = 31 then .ok (s.addr, s.addr + 1)
  else if s.prefixLen = 30 then .ok (s.addr + 1, s.addr + 2)
  else .error (.valueError "not enough or too many values to unpack")

/-- Python `subnets.pop()` (line 41): removes and returns the last element;
raises `IndexError` on an empty list. -/
def popLast (l : List IPv4Network) : Except PyError (IPv4Network × List IPv4Network) :=
  match l.getLast? with
  | some s => .ok (s, l.dropLast)
  | none => .error .indexError

/-- The insertion-ordered Python dict `rtr_configs`: router name to list of
configuration lines. -/
abbrev RtrConfigs := List (String × List String)

/-- Python `k in rtr_configs`. -/
def hasKey : RtrConfigs → String → Bool
  | [], _ => false
  | p :: t, k => p.1 == k || hasKey t k

/-- Python `rtr_configs[k]` as a read (first entry with the key; keys of a
dict are unique so at most one entry matches). -/
def lookup : RtrConfigs → String → Option (List String)
  | [], _ => none
  | p :: t, k => if p.1 == k then some p.2 else lookup t k

/-- Python `rtr_configs[k].append(line)`: appends to the entry with key `k`. -/
def appendLine : RtrConfigs → String → String → RtrConfigs
  | [], _, _ => []
  | p :: t, k, line =>
    (if p.1 == k then (p.1, p.2 ++ [line]) else p) :: appendLine t k line

/-- Python `if k not in rtr_configs: rtr_configs[k] = []` (lines 45-46 and
51-52): inserting a fresh key appends a new entry at the end. -/
def ensureKey (m : RtrConfigs) (k : String) : RtrConfigs :=
  if hasKey m k then m else m ++ [(k, [])]

/-- Lines 45-49 (and 51-55) for one endpoint: make sure the router has an
entry, then append the `interface` line and the ` ip address` line. -/
def addIntfBlock (m : RtrConfigs) (router intf addrStr : String) : RtrConfigs :=
  appendLine (appendLine (ensureKey m router) router ("interface " ++ intf ++ "\n"))
    router (" ip address " ++ addrStr ++ "\n")

/-- One iteration of the `for link in links` loop (lines 35-55).  The state
is the remaining subnet pool together with the accumulated `rtr_configs`.
A link is its `endpoints` list of strings. -/
def processLink (st : List IPv4Network × RtrConfigs) (link : List String) :
    Except PyError (List IPv4Network × RtrConfigs) :=
  match link[0]?, link[1]? with
  | some a_end, some b_end =>
    match splitColon a_end, splitColon b_end with
    | .ok ar, .ok br =>
      match popLast st.1 with
      | .ok (s, pool) =>
        match hostsPair s with
        | .ok (a_ip, b_ip) =>
          let cfgsA := addIntfBlock st.2 ar.1 ar.2
            (ipToString a_ip ++ "/" ++ toString s.prefixLen)
          let cfgsB := addIntfBlock cfgsA br.1 br.2
            (ipToString b_ip ++ "/" ++ toString s.prefixLen)
          .ok (pool, cfgsB)
        | .error e => .error e
      | .error e => .error e
    | .error e, _ => .error e
    | .ok _, .error e => .error e
  | _, _ => .error .indexError

/-- The whole `for link in links` loop, in iteration order. -/
def runLinks (links : List (List String)) (st : List IPv4Network × RtrConfigs) :
    Except PyError (List IPv4Network × RtrConfigs) :=
  links.foldlM processLink st

/-- The topology description as far as this core reads it: the optional
`links` section, each link being its list of endpoint strings. -/
structure ParsedData where
  links : Option (List (List String))

/-- `main.py` line 31: `generate_frrouter_addressing_info(subnets, parsed_data)`.
If the `links` key is absent, raises `ValueError`; otherwise runs the loop
and returns the router-config dict. -/
def generate_frrouter_addressing_info (subnets : List IPv4Network)
    (parsed_data : ParsedData) : Except PyError RtrConfigs :=
  match parsed_data.links with
  | some links =>
    match runLinks links (subnets, []) with
    | .ok st => .ok st.2
    | .error e => .error e
  | none => .error (.valueError "No links section found in the YAML data.")

/-- Lines 250-256 of `main` for one router: three `insert(0, _)` calls
(defaults, hostname, no-ipv6, so the final front order is no-ipv6, hostname,
defaults) followed by three `append` calls (ospf, network, vty). -/
def addBaseConfig (router : String) (lines : List String) : List String :=
  ("no ipv6 forwarding \n" :: ("hostname " ++ router ++ " \n") ::
    "frr defaults traditional \n" :: lines) ++
    ["router ospf \n", " network 10.254.0.0/16 area 0.0.0.0 \n", "line vty \n"]

/-- The `for router in rtr_configs` loop of lines 250-256. -/
def addBaseConfigAll (m : RtrConfigs) : RtrConfigs :=
  m.map (fun p => (p.1, addBaseConfig p.1 p.2))

/-- Lines 263-264 of `main`: `for router, config in bgp_config.items():
rtr_configs[router].append(config)`.  Indexing a dict with an absent key
raises `KeyError`. -/
def appendBgp (m : RtrConfigs) (bgp : List (String × String)) :
    Except PyError RtrConfigs :=
  bgp.foldlM (fun acc rc =>
    if hasKey acc rc.1 then .ok (appendLine acc rc.1 rc.2)
    else .error (.keyError rc.1)) m

/-- Python `subprocess` semantics for `Popen(...).communicate()`: a stream is
captured only when the corresponding `Popen` argument was `PIPE`; for a
stream that was not piped, `communicate()` returns `None` in its slot. -/
def communicate (stdoutPiped stderrPiped : Bool) (stdoutData stderrData : String) :
    Option String × Option String :=
  (if stdoutPiped then some stdoutData else none,
   if stderrPiped then some stderrData else none)

/-- Python truthiness of an `Optional[str]`: `None` and the empty string are
falsy. -/
def truthy : Option String → Bool
  | none => false
  | some s => !s.isEmpty

/-- Lines 294-298 of `main`: `process = subprocess.Popen(command.split(),
stdout=subprocess.PIPE)` — only stdout is piped — then
`output, error = process.communicate()` and `if error: raise ValueError(...)`.
The parameters are the data the external tool actually wrote to its two
streams and its exit code (the code never reads the exit code). -/
def deployContainerlab (stdoutData stderrData : String) (exitCode : Nat) :
    Except PyError Unit :=
  let oe := communicate true false stdoutData stderrData
  if truthy oe.2 then
    .error (.valueError "Error occurred while deploying containerlab topology")
  else
    .ok ()

/-- Well-formed link: it has at least two endpoint strings and both split
into exactly a router and an interface part. -/
def wfLink (link : List String) : Bool :=
  match link[0]?, link[1]? with
  | some a, some b =>
    (match splitColon a with | .ok _ => true | .error _ => false) &&
    (match splitColon b with | .ok _ => true | .error _ => false)
  | _, _ => false

/-- Instrumented variant of one loop iteration that also records which subnet
was consumed from the pool tail; used only to state the no-double-issue
property, and proved to agree with `processLink`. -/
def processLinkT (st : (List IPv4Network × RtrConfigs) × List IPv4Network)
    (link : List String) :
    Except PyError ((List IPv4Network × RtrConfigs) × List IPv4Network) :=
  match processLink st.1 link with
  | .ok st2 =>
    match st.1.1.getLast? with
    | some s => .ok (st2, st.2 ++ [s])
    | none => .ok (st2, st.2)
  | .error e => .error e

/-- The instrumented loop. -/
def runLinksT (links : List (List String))
    (st : (List IPv4Network × RtrConfigs) × List IPv4Network) :
    Except PyError ((List IPv4Network × RtrConfigs) × List IPv4Network) :=
  links.foldlM processLinkT st

/-- The parent block of `main` line 223: `10.254.0.0/24`. -/
def c3block : IPv4Network := ⟨184418304, 24⟩

/-- The single-link topology of the end-to-end example. -/
def c3parsed : ParsedData := ⟨some [["r1:eth1", "r2:eth1"]]⟩

/-- The concrete pipeline of the end-to-end example: subnet generation
followed by address assignment. -/
def c3run : Except PyError RtrConfigs :=
  match generate_31_subnets c3block with
  | .ok subs => generate_frrouter_addressing_info subs c3parsed
  | .error e => .error e

/-- The configuration lines produced for a sequence of (interface name,
address string) fragments: per fragment, an `interface` declaration line
followed by an ` ip address` line. -/
def intfBlocks (ps : List (String × String)) : List String :=
  (ps.map (fun q => ["interface " ++ q.1 ++ "\n", " ip address " ++ q.2 ++ "\n"])).flatten

/-- Invariant of the router-config dict built by the assignment loop: every
router's line list is a concatenation of interface blocks. -/
def goodCfgs (m : RtrConfigs) : Prop :=
  ∀ p ∈ m, ∃ ps, p.2 = intfBlocks ps

/-! ### Lemmas about the router-config dict operations -/

theorem lookup_appendLine (m : RtrConfigs) (k j x : String) :
    lookup (appendLine m k x) j =
      if j = k then (lookup m j).map (fun v => v ++ [x]) else lookup m j := by
  induction m with
  | nil => simp [lookup, appendLine]
  | cons p t ih =>
    by_cases hpk : p.1 = k <;> by_cases hpj : p.1 = j
    · have hjk : j = k := by rw [← hpj]; exact hpk
      simp [appendLine, lookup, hpk, hpj, hjk]
    · have hjk : ¬ j = k := fun hh => hpj (by rw [hpk, ← hh])
      have hkj : ¬ k = j := by rw [← hpk]; exact hpj
      simp [appendLine, lookup, hpk, hpj, hjk, hkj, ih]
    · have hjk : ¬ j = k := by rw [← hpj]; exact hpk
      simp [appendLine, lookup, hpk, hpj, hjk]
    · simp [appendLine, lookup, hpk, hpj, ih]

theorem hasKey_appendLine (m : RtrConfigs) (k j x : String) :
    hasKey (appendLine m k x) j = hasKey m j := by
  induction m with
  | nil => rfl
  | cons p t ih =>
    by_cases hpk : p.1 = k <;> simp [hasKey, appendLine, hpk, ih]

theorem hasKey_eq_isSome (m : RtrConfigs) (k : String) :
    hasKey m k = (lookup m k).isSome := by
  induction m with
  | nil => rfl
  | cons p t ih =>
    by_cases hpk : p.1 = k <;> simp [hasKey, lookup, hpk, ih]

theorem lookup_append_right (m m2 : RtrConfigs) (k : String)
    (h : hasKey m k = false) : lookup (m ++ m2) k = lookup m2 k := by
  induction m with
  | nil => rfl
  | cons p t ih =>
    simp only [hasKey, Bool.or_eq_false_iff, beq_eq_false_iff_ne, ne_eq] at h
    simp only [List.cons_append, lookup, beq_iff_eq]
    rw [if_neg h.1]
    exact ih h.2

theorem lookup_append_left (m m2 : RtrConfigs) (k : String)
    (h : hasKey m k = true) : lookup (m ++ m2) k = lookup m k := by
  induction m with
  | nil => simp [hasKey] at h
  | cons p t ih =>
    by_cases hpk : p.1 = k
    · simp [lookup, hpk]
    · simp only [hasKey, Bool.or_eq_true, beq_iff_eq] at h
      rcases h with h | h
      · exact absurd h hpk
      · simp only [List.cons_append, lookup, beq_iff_eq]
        rw [if_neg hpk, if_neg hpk]
        exact ih h

theorem ensureKey_of_hasKey (m : RtrConfigs) (k : String) (h : hasKey m k = true) :
    ensureKey m k = m := by
  simp [ensureKey, h]

theorem lookup_ensureKey_self (m : RtrConfigs) (k : String) :
    lookup (ensureKey m k) k = some ((lookup m k).getD []) := by
  unfold ensureKey
  by_cases h : hasKey m k
  · rw [if_pos h]
    have hs := hasKey_eq_isSome m k
    rw [h] at hs
    cases hl : lookup m k with
    | none => rw [hl] at hs; simp at hs
    | some v => simp [hl]
  · have hf : hasKey m k = false := by simpa using h
    rw [if_neg h, lookup_append_right m _ k hf]
    have hs := hasKey_eq_isSome m k
    rw [hf] at hs
    cases hl : lookup m k with
    | none => simp [lookup]
    | some v => rw [hl] at hs; simp at hs

theorem lookup_ensureKey_ne (m : RtrConfigs) (k j : String) (h : j ≠ k) :
    lookup (ensureKey m k) j = lookup m j := by
  unfold ensureKey
  by_cases hk : hasKey m k
  · rw [if_pos hk]
  · rw [if_neg hk]
    by_cases hj : hasKey m j
    · exact lookup_append_left m _ j hj
    · have hf : hasKey m j = false := by simpa using hj
      rw [lookup_append_right m _ j hf]
      have hs := hasKey_eq_isSome m j
      rw [hf] at hs
      cases hl : lookup m j with
      | none => simp [lookup, Ne.symm h]
      | some v => rw [hl] at hs; simp at hs

theorem lookup_addIntfBlock_self (m : RtrConfigs) (r i a : String) :
    lookup (addIntfBlock m r i a) r =
      some ((lookup m r).getD [] ++
        ["interface " ++ i ++ "\n", " ip address " ++ a ++ "\n"]) := by
  unfold addIntfBlock
  rw [lookup_appendLine, if_pos rfl, lookup_appendLine, if_pos rfl,
    lookup_ensureKey_self]
  simp

theorem lookup_addIntfBlock_ne (m : RtrConfigs) (r i a j : String) (h : j ≠ r) :
    lookup (addIntfBlock m r i a) j = lookup m j := by
  unfold addIntfBlock
  rw [lookup_appendLine, if_neg h, lookup_appendLine, if_neg h,
    lookup_ensureKey_ne m r j h]

theorem intfBlocks_append (ps : List (String × String)) (q : String × String) :
    intfBlocks (ps ++ [q]) = intfBlocks ps ++
      ["interface " ++ q.1 ++ "\n", " ip address " ++ q.2 ++ "\n"] := by
  simp [intfBlocks]

theorem mem_appendLine (m : RtrConfigs) (k x : String) (p : String × List String)
    (h : p ∈ appendLine m k x) :
    ∃ q ∈ m, p = if q.1 = k then (q.1, q.2 ++ [x]) else q := by
  induction m with
  | nil => simp [appendLine] at h
  | cons q0 t ih =>
    simp only [appendLine, List.mem_cons] at h
    rcases h with h | h
    · refine ⟨q0, List.mem_cons_self q0 t, ?_⟩
      by_cases hq : q0.1 = k <;> simp [hq] at h ⊢ <;> exact h
    · obtain ⟨q, hq, hpq⟩ := ih h
      exact ⟨q, List.mem_cons_of_mem _ hq, hpq⟩

theorem goodCfgs_nil : goodCfgs [] := by
  intro p hp
  cases hp

theorem goodCfgs_ensureKey (m : RtrConfigs) (k : String) (h : goodCfgs m) :
    goodCfgs (ensureKey m k) := by
  intro p hp
  unfold ensureKey at hp
  by_cases hk : hasKey m k
  · rw [if_pos hk] at hp
    exact h p hp
  · rw [if_neg hk] at hp
    rcases List.mem_append.mp hp with h1 | h1
    · exact h p h1
    · simp only [List.mem_singleton] at h1
      exact ⟨[], by simp [h1, intfBlocks]⟩

theorem goodCfgs_addIntfBlock (m : RtrConfigs) (r i a : String) (h : goodCfgs m) :
    goodCfgs (addIntfBlock m r i a) := by
  intro p hp
  unfold addIntfBlock at hp
  obtain ⟨q1, hq1, hpq1⟩ := mem_appendLine _ _ _ _ hp
  obtain ⟨q0, hq0, hq10⟩ := mem_appendLine _ _ _ _ hq1
  obtain ⟨ps, hps⟩ := goodCfgs_ensureKey m r h q0 hq0
  by_cases hr : q0.1 = r
  · subst hpq1 hq10
    refine ⟨ps ++ [(i, a)], ?_⟩
    simp [hr, hps, intfBlocks_append]
  · subst hpq1 hq10
    rw [if_neg hr, if_neg hr]
    exact ⟨ps, hps⟩

/-! ### Lemmas about the assignment loop -/

theorem wfLink_spec (link : List String) (h : wfLink link = true) :
    ∃ a b ar br, link[0]? = some a ∧ link[1]? = some b ∧
      splitColon a = .ok ar ∧ splitColon b = .ok br := by
  unfold wfLink at h
  cases h0 : link[0]? with
  | none => rw [h0] at h; try dsimp only at h; simp at h
  | some a =>
    rw [h0] at h
    cases h1 : link[1]? with
    | none => rw [h1] at h; try dsimp only at h; simp at h
    | some b =>
      rw [h1] at h
      try dsimp only at h
      cases ha : splitColon a with
      | error e => rw [ha] at h; try dsimp only at h; simp at h
      | ok ar =>
        rw [ha] at h
        try dsimp only at h
        cases hb : splitColon b with
        | error e => rw [hb] at h; try dsimp only at h; simp at h
        | ok br => exact ⟨a, b, ar, br, rfl, rfl, ha, hb⟩

theorem processLink_ok (pool : List IPv4Network) (cfgs : RtrConfigs)
    (link : List String) (a b : String) (ar br : String × String) (s : IPv4Network)
    (h0 : link[0]? = some a) (h1 : link[1]? = some b)
    (ha : splitColon a = .ok ar) (hb : splitColon b = .ok br)
    (hs : pool.getLast? = some s) (hp : s.prefixLen = 31) :
    processLink (pool, cfgs) link = .ok (pool.dropLast,
      addIntfBlock
        (addIntfBlock cfgs ar.1 ar.2 (ipToString s.addr ++ "/" ++ toString s.prefixLen))
        br.1 br.2 (ipToString (s.addr + 1) ++ "/" ++ toString s.prefixLen)) := by
  simp [processLink, h0, h1, ha, hb, popLast, hs, hostsPair, hp]

theorem processLink_empty_pool (cfgs : RtrConfigs) (link : List String)
    (h : wfLink link = true) :
    processLink ([], cfgs) link = .error .indexError := by
  obtain ⟨a, b, ar, br, h0, h1, ha, hb⟩ := wfLink_spec link h
  simp [processLink, h0, h1, ha, hb, popLast]

theorem processLink_cfgs_inv (st st2 : List IPv4Network × RtrConfigs)
    (link : List String) (h : processLink st link = .ok st2) :
    ∃ r1 i1 a1 r2 i2 a2,
      st2.2 = addIntfBlock (addIntfBlock st.2 r1 i1 a1) r2 i2 a2 := by
  unfold processLink at h
  cases h0 : link[0]? with
  | none => rw [h0] at h; try dsimp only at h; simp at h
  | some a =>
    rw [h0] at h
    cases h1 : link[1]? with
    | none => rw [h1] at h; try dsimp only at h; simp at h
    | some b =>
      rw [h1] at h
      try dsimp only at h
      cases ha : splitColon a with
      | error e => rw [ha] at h; try dsimp only at h; simp at h
      | ok ar =>
        rw [ha] at h
        try dsimp only at h
        cases hb : splitColon b with
        | error e => rw [hb] at h; try dsimp only at h; simp at h
        | ok br =>
          rw [hb] at h
          try dsimp only at h
          cases hpl : popLast st.1 with
          | error e => rw [hpl] at h; try dsimp only at h; simp at h
          | ok sp =>
            rw [hpl] at h
            try dsimp only at h
            cases hh : hostsPair sp.1 with
            | error e => rw [hh] at h; try dsimp only at h; simp at h
            | ok ips =>
              rw [hh] at h
              try dsimp only at h
              simp only [Except.ok.injEq] at h
              refine ⟨ar.1, ar.2, ipToString ips.1 ++ "/" ++ toString sp.1.prefixLen,
                br.1, br.2, ipToString ips.2 ++ "/" ++ toString sp.1.prefixLen, ?_⟩
              rw [← h]

theorem runLinks_cons (l : List String) (ls : List (List String))
    (st : List IPv4Network × RtrConfigs) :
    runLinks (l :: ls) st = (processLink st l).bind (runLinks ls) := rfl

theorem runLinks_goodCfgs (links : List (List String)) :
    ∀ st st2, runLinks links st = .ok st2 → goodCfgs st.2 → goodCfgs st2.2 := by
  induction links with
  | nil =>
    intro st st2 h hg
    have : st = st2 := by simpa [runLinks, List.foldlM, pure, Except.pure] using h
    rw [← this]
    exact hg
  | cons l ls ih =>
    intro st st2 h hg
    rw [runLinks_cons] at h
    cases hp : processLink st l with
    | error e => rw [hp] at h; simp [Except.bind] at h
    | ok st1 =>
      rw [hp] at h
      obtain ⟨r1, i1, a1, r2, i2, a2, hc⟩ := processLink_cfgs_inv st st1 l hp
      refine ih st1 st2 (by simpa [Except.bind] using h) ?_
      rw [hc]
      exact goodCfgs_addIntfBlock _ _ _ _ (goodCfgs_addIntfBlock _ _ _ _ hg)

theorem runLinks_exhausted (links : List (List String)) :
    ∀ pool cfgs, (∀ l ∈ links, wfLink l = true) → (∀ s ∈ pool, s.prefixLen = 31) →
      pool.length < links.length →
      runLinks links (pool, cfgs) = .error .indexError := by
  induction links with
  | nil => intro pool cfgs _ _ hlen; simp at hlen
  | cons l ls ih =>
    intro pool cfgs hwf h31 hlen
    obtain ⟨a, b, ar, br, h0, h1, ha, hb⟩ := wfLink_spec l (hwf l (List.mem_cons_self l ls))
    rw [runLinks_cons]
    cases hpool : pool.getLast? with
    | none =>
      have hnil : pool = [] := List.getLast?_eq_none_iff.mp hpool
      subst hnil
      rw [processLink_empty_pool cfgs l (hwf l (List.mem_cons_self l ls))]
      rfl
    | some s =>
      have hd : pool.dropLast ++ [s] = pool :=
        List.dropLast_append_getLast? s (by simp [hpool])
      have hmem : s ∈ pool := by rw [← hd]; simp
      have h31s : s.prefixLen = 31 := h31 s hmem
      rw [processLink_ok pool cfgs l a b ar br s h0 h1 ha hb hpool h31s]
      simp only [Except.bind]
      apply ih
      · intro l2 hl2
        exact hwf l2 (List.mem_cons_of_mem _ hl2)
      · intro s2 hs2
        exact h31 s2 (List.dropLast_sublist pool |>.subset hs2)
      · have : pool.dropLast.length + 1 = pool.length := by
          rw [← hd]; simp
        simp only [List.length_cons] at hlen
        omega

theorem runLinksT_all (links : List (List String)) :
    ∀ pool cfgs tr, (∀ l ∈ links, wfLink l = true) → (∀ s ∈ pool, s.prefixLen = 31) →
      links.length = pool.length →
      ∃ cfgs2, runLinksT links ((pool, cfgs), tr) = .ok (([], cfgs2), tr ++ pool.reverse) := by
  induction links with
  | nil =>
    intro pool cfgs tr _ _ hlen
    have hnil : pool = [] := by
      cases pool with
      | nil => rfl
      | cons q qs => simp at hlen
    subst hnil
    exact ⟨cfgs, by simp [runLinksT, List.foldlM, pure, Except.pure]⟩
  | cons l ls ih =>
    intro pool cfgs tr hwf h31 hlen
    obtain ⟨a, b, ar, br, h0, h1, ha, hb⟩ := wfLink_spec l (hwf l (List.mem_cons_self l ls))
    cases hpool : pool.getLast? with
    | none =>
      have hnil : pool = [] := List.getLast?_eq_none_iff.mp hpool
      subst hnil
      simp at hlen
    | some s =>
      have hd : pool.dropLast ++ [s] = pool :=
        List.dropLast_append_getLast? s (by simp [hpool])
      have hmem : s ∈ pool := by rw [← hd]; simp
      have h31s : s.prefixLen = 31 := h31 s hmem
      have hstep :
          processLinkT ((pool, cfgs), tr) l = .ok ((pool.dropLast,
            addIntfBlock
              (addIntfBlock cfgs ar.1 ar.2 (ipToString s.addr ++ "/" ++ toString s.prefixLen))
              br.1 br.2 (ipToString (s.addr + 1) ++ "/" ++ toString s.prefixLen)), tr ++ [s]) := by
        unfold processLinkT
        rw [processLink_ok pool cfgs l a b ar br s h0 h1 ha hb hpool h31s]
        simp [hpool]
      obtain ⟨cfgs2, hrec⟩ := ih pool.dropLast _ (tr ++ [s])
        (fun l2 hl2 => hwf l2 (List.mem_cons_of_mem _ hl2))
        (fun s2 hs2 => h31 s2 (List.dropLast_sublist pool |>.subset hs2))
        (by
          have : pool.dropLast.length + 1 = pool.length := by rw [← hd]; simp
          simp only [List.length_cons] at hlen
          omega)
      refine ⟨cfgs2, ?_⟩
      have hrev : pool.reverse = s :: pool.dropLast.reverse := by
        conv_lhs => rw [← hd]
        rw [List.reverse_append]
        rfl
      calc runLinksT (l :: ls) ((pool, cfgs), tr)
          = (processLinkT ((pool, cfgs), tr) l).bind (runLinksT ls) := rfl
        _ = .ok (([], cfgs2), (tr ++ [s]) ++ pool.dropLast.reverse) := by
            rw [hstep]; simpa [Except.bind] using hrec
        _ = .ok (([], cfgs2), tr ++ pool.reverse) := by
            rw [hrev, List.append_assoc]
            rfl

/-! ### Claim theorems -/

/-- C1: for every IPv4 address block with prefix length strictly below 31,
`generate_31_subnets` returns exactly `2^(31-p)` subnets, all of prefix
length 31, contiguous and in increasing address order (the i-th starts at
`addr + 2*i`), pairwise non-overlapping, and together exactly covering the
parent block. -/
theorem C1_subnet_allocator (network : IPv4Network) (h : network.prefixLen < 31) :
    ∃ subs : List IPv4Network,
      generate_31_subnets network = .ok subs ∧
      subs.length = 2 ^ (31 - network.prefixLen) ∧
      (∀ s ∈ subs, s.prefixLen = 31) ∧
      (∀ i (hi : i < subs.length), subs[i] = ⟨network.addr + 2 * i, 31⟩) ∧
      (∀ i j (hi : i < subs.length) (hj : j < subs.length), i ≠ j →
        ∀ a, memBlock subs[i] a → ¬ memBlock subs[j] a) ∧
      (∀ a, memBlock network a ↔ ∃ i, ∃ hi : i < subs.length, memBlock subs[i] a) := by
  have hpow : 2 ^ (32 - network.prefixLen) = 2 * 2 ^ (31 - network.prefixLen) := by
    have h32 : 32 - network.prefixLen = (31 - network.prefixLen) + 1 := by omega
    rw [h32, pow_succ]
    ring
  refine ⟨(List.range (2 ^ (31 - network.prefixLen))).map
      (fun i => ⟨network.addr + 2 * i, 31⟩), ?_, ?_, ?_, ?_, ?_, ?_⟩
  · simp [generate_31_subnets, Nat.not_le.mpr h]
  · simp
  · intro s hs
    simp only [List.mem_map] at hs
    obtain ⟨i, _, rfl⟩ := hs
    rfl
  · intro i hi
    simp only [List.getElem_map, List.getElem_range]
  · intro i j hi hj hne a hai haj
    simp only [List.length_map, List.length_range] at hi hj
    simp only [List.getElem_map, List.getElem_range, memBlock] at hai haj
    norm_num at hai haj
    omega
  · intro a
    constructor
    · intro ha
      obtain ⟨h1, h2⟩ := ha
      rw [hpow] at h2
      refine ⟨(a - network.addr) / 2, ?_, ?_⟩
      · simp only [List.length_map, List.length_range]
        omega
      · simp only [List.getElem_map, List.getElem_range, memBlock]
        norm_num
        omega
    · intro ⟨i, hi, hmem⟩
      simp only [List.length_map, List.length_range] at hi
      simp only [List.getElem_map, List.getElem_range, memBlock] at hmem
      norm_num at hmem
      constructor
      · omega
      · rw [hpow]
        omega

/-- Witness for C1 at the concrete block `0.0.0.0/30`. -/
theorem C1_subnet_allocator_witness :
    (⟨0, 30⟩ : IPv4Network).prefixLen < 31 ∧
    (∃ subs : List IPv4Network,
      generate_31_subnets ⟨0, 30⟩ = .ok subs ∧
      subs.length = 2 ^ (31 - (⟨0, 30⟩ : IPv4Network).prefixLen) ∧
      (∀ s ∈ subs, s.prefixLen = 31) ∧
      (∀ i (hi : i < subs.length),
        subs[i] = ⟨(⟨0, 30⟩ : IPv4Network).addr + 2 * i, 31⟩) ∧
      (∀ i j (hi : i < subs.length) (hj : j < subs.length), i ≠ j →
        ∀ a, memBlock subs[i] a → ¬ memBlock subs[j] a) ∧
      (∀ a, memBlock ⟨0, 30⟩ a ↔ ∃ i, ∃ hi : i < subs.length, memBlock subs[i] a)) :=
  ⟨by decide, C1_subnet_allocator ⟨0, 30⟩ (by decide)⟩

/-- C7: for every address block whose prefix length is 31 or greater,
`generate_31_subnets` fails with the `ValueError` of line 19 (the
InvalidAllocationRequest of the specification) and returns no subnets. -/
theorem C7_invalid_allocation (network : IPv4Network) (h : 31 ≤ network.prefixLen) :
    generate_31_subnets network =
      .error (.valueError
        "New prefix length /31 should be larger than parent prefix length.") := by
  simp [generate_31_subnets, h]

/-- Witness for C7 at the concrete block `10.0.0.0/31`. -/
theorem C7_invalid_allocation_witness :
    31 ≤ (⟨167772160, 31⟩ : IPv4Network).prefixLen ∧
    generate_31_subnets ⟨167772160, 31⟩ =
      .error (.valueError
        "New prefix length /31 should be larger than parent prefix length.") :=
  ⟨by decide, C7_invalid_allocation ⟨167772160, 31⟩ (by decide)⟩

/-- C6: for every topology description whose `links` section is absent,
`generate_frrouter_addressing_info` raises the `ValueError` of line 58 (the
MissingTopologyData of the specification), whatever the subnet pool is; no
pop happens and no router fragment is produced (the result carries no
configuration and does not depend on the pool). -/
theorem C6_missing_links (subnets : List IPv4Network) :
    generate_frrouter_addressing_info subnets ⟨none⟩ =
      .error (.valueError "No links section found in the YAML data.") := rfl

/-- C9: the claim says a non-empty stderr stream of the deployment tool is
fatal; in the code only stdout is piped, so `communicate()` always returns
`None` for stderr and the `if error:` check never fires.  At the failing
input (the tool writes a non-empty error stream and exits 0) the run
succeeds; indeed it succeeds for every stream content and exit code. -/
theorem C9_stderr_never_fatal :
    deployContainerlab "" "Error: deployment failed" 0 = .ok () ∧
    communicate true false "" "Error: deployment failed" = (some "", none) ∧
    (∀ stdoutData stderrData : String, ∀ exitCode : Nat,
      deployContainerlab stdoutData stderrData exitCode = .ok ()) :=
  ⟨rfl, rfl, fun _ _ _ => rfl⟩

/-- C2: one iteration of the assignment loop, started at any state, pops the
subnet at the pool's tail (`getLast`); the loop runs over links in the given
iteration order (head first); the popped /31's two host addresses are
adjacent (`addr` and `addr + 1`, both inside the subnet, neither outside the
two-address block), and the lower one is bound to the link's first endpoint
while the higher one goes to the second endpoint. -/
theorem C2_address_assigner (pool : List IPv4Network) (cfgs : RtrConfigs)
    (link : List String) (ls : List (List String)) (a b : String)
    (ar br : String × String) (s : IPv4Network)
    (h0 : link[0]? = some a) (h1 : link[1]? = some b)
    (ha : splitColon a = .ok ar) (hb : splitColon b = .ok br)
    (hs : pool.getLast? = some s) (hp : s.prefixLen = 31)
    (hne : ar.1 ≠ br.1) :
    ∃ cfgs2,
      processLink (pool, cfgs) link = .ok (pool.dropLast, cfgs2) ∧
      runLinks (link :: ls) (pool, cfgs) = runLinks ls (pool.dropLast, cfgs2) ∧
      hostsPair s = .ok (s.addr, s.addr + 1) ∧
      s.addr + 1 - s.addr = 1 ∧
      memBlock s s.addr ∧ memBlock s (s.addr + 1) ∧
      lookup cfgs2 ar.1 = some ((lookup cfgs ar.1).getD [] ++
        ["interface " ++ ar.2 ++ "\n",
         " ip address " ++ (ipToString s.addr ++ "/" ++ toString s.prefixLen) ++ "\n"]) ∧
      lookup cfgs2 br.1 = some ((lookup cfgs br.1).getD [] ++
        ["interface " ++ br.2 ++ "\n",
         " ip address " ++ (ipToString (s.addr + 1) ++ "/" ++ toString s.prefixLen) ++ "\n"]) := by
  refine ⟨_, processLink_ok pool cfgs link a b ar br s h0 h1 ha hb hs hp,
    ?_, ?_, ?_, ?_, ?_, ?_, ?_⟩
  · rw [runLinks_cons, processLink_ok pool cfgs link a b ar br s h0 h1 ha hb hs hp]
    rfl
  · simp [hostsPair, hp]
  · omega
  · constructor
    · exact le_refl _
    · rw [hp]
      norm_num
  · constructor
    · exact Nat.le_succ _
    · rw [hp]
      norm_num
  · rw [lookup_addIntfBlock_ne _ _ _ _ _ hne, lookup_addIntfBlock_self]
  · rw [lookup_addIntfBlock_self, lookup_addIntfBlock_ne _ _ _ _ _ (Ne.symm hne)]

/-- Witness for C2: a pool holding the single subnet `0.0.0.0/31` and the
link `["r1:eth1", "r2:eth1"]`. -/
theorem C2_address_assigner_witness :
    ([⟨0, 31⟩] : List IPv4Network).getLast? = some ⟨0, 31⟩ ∧
    splitColon "r1:eth1" = .ok ("r1", "eth1") ∧
    splitColon "r2:eth1" = .ok ("r2", "eth1") ∧
    (∃ cfgs2,
      processLink ([⟨0, 31⟩], []) ["r1:eth1", "r2:eth1"] =
        .ok (([⟨0, 31⟩] : List IPv4Network).dropLast, cfgs2) ∧
      runLinks [["r1:eth1", "r2:eth1"]] ([⟨0, 31⟩], []) =
        runLinks [] (([⟨0, 31⟩] : List IPv4Network).dropLast, cfgs2) ∧
      hostsPair ⟨0, 31⟩ = .ok ((⟨0, 31⟩ : IPv4Network).addr,
        (⟨0, 31⟩ : IPv4Network).addr + 1) ∧
      (⟨0, 31⟩ : IPv4Network).addr + 1 - (⟨0, 31⟩ : IPv4Network).addr = 1 ∧
      memBlock ⟨0, 31⟩ (⟨0, 31⟩ : IPv4Network).addr ∧
      memBlock ⟨0, 31⟩ ((⟨0, 31⟩ : IPv4Network).addr + 1) ∧
      lookup cfgs2 ("r1", "eth1").1 = some ((lookup [] ("r1", "eth1").1).getD [] ++
        ["interface " ++ ("r1", "eth1").2 ++ "\n",
         " ip address " ++ (ipToString (⟨0, 31⟩ : IPv4Network).addr ++ "/" ++
           toString (⟨0, 31⟩ : IPv4Network).prefixLen) ++ "\n"]) ∧
      lookup cfgs2 ("r2", "eth1").1 = some ((lookup [] ("r2", "eth1").1).getD [] ++
        ["interface " ++ ("r2", "eth1").2 ++ "\n",
         " ip address " ++ (ipToString ((⟨0, 31⟩ : IPv4Network).addr + 1) ++ "/" ++
           toString (⟨0, 31⟩ : IPv4Network).prefixLen) ++ "\n"])) :=
  ⟨rfl, rfl, rfl,
    C2_address_assigner [⟨0, 31⟩] [] ["r1:eth1", "r2:eth1"] [] "r1:eth1" "r2:eth1"
      ("r1", "eth1") ("r2", "eth1") ⟨0, 31⟩ rfl rfl rfl rfl rfl rfl (by decide)⟩

/-- C10: a self-loop link (both endpoints naming the same router) is neither
rejected nor an error: processing succeeds, exactly one subnet is still
consumed from the pool's tail, and both interface fragments land in the one
router's entry. -/
theorem C10_self_loop (pool : List IPv4Network) (cfgs : RtrConfigs)
    (a b r i1 i2 : String) (s : IPv4Network)
    (ha : splitColon a = .ok (r, i1)) (hb : splitColon b = .ok (r, i2))
    (hs : pool.getLast? = some s) (hp : s.prefixLen = 31) :
    ∃ cfgs2,
      processLink (pool, cfgs) [a, b] = .ok (pool.dropLast, cfgs2) ∧
      pool.dropLast.length + 1 = pool.length ∧
      lookup cfgs2 r = some ((lookup cfgs r).getD [] ++
        ["interface " ++ i1 ++ "\n",
         " ip address " ++ (ipToString s.addr ++ "/" ++ toString s.prefixLen) ++ "\n",
         "interface " ++ i2 ++ "\n",
         " ip address " ++ (ipToString (s.addr + 1) ++ "/" ++ toString s.prefixLen) ++ "\n"]) := by
  refine ⟨_, processLink_ok pool cfgs [a, b] a b (r, i1) (r, i2) s rfl rfl ha hb hs hp,
    ?_, ?_⟩
  · have hd : pool.dropLast ++ [s] = pool :=
      List.dropLast_append_getLast? s (by simp [hs])
    rw [← hd]
    simp
  · rw [lookup_addIntfBlock_self, lookup_addIntfBlock_self]
    simp

/-- Witness for C10: the self-loop link `["r1:eth1", "r1:eth2"]` against a
one-subnet pool. -/
theorem C10_self_loop_witness :
    splitColon "r1:eth1" = .ok ("r1", "eth1") ∧
    splitColon "r1:eth2" = .ok ("r1", "eth2") ∧
    ([⟨0, 31⟩] : List IPv4Network).getLast? = some ⟨0, 31⟩ ∧
    (∃ cfgs2,
      processLink ([⟨0, 31⟩], []) ["r1:eth1", "r1:eth2"] =
        .ok (([⟨0, 31⟩] : List IPv4Network).dropLast, cfgs2) ∧
      ([⟨0, 31⟩] : List IPv4Network).dropLast.length + 1 =
        ([⟨0, 31⟩] : List IPv4Network).length ∧
      lookup cfgs2 "r1" = some ((lookup [] "r1").getD [] ++
        ["interface " ++ "eth1" ++ "\n",
         " ip address " ++ (ipToString (⟨0, 31⟩ : IPv4Network).addr ++ "/" ++
           toString (⟨0, 31⟩ : IPv4Network).prefixLen) ++ "\n",
         "interface " ++ "eth2" ++ "\n",
         " ip address " ++ (ipToString ((⟨0, 31⟩ : IPv4Network).addr + 1) ++ "/" ++
           toString (⟨0, 31⟩ : IPv4Network).prefixLen) ++ "\n"])) :=
  ⟨rfl, rfl, rfl,
    C10_self_loop [⟨0, 31⟩] [] "r1:eth1" "r1:eth2" "r1" "eth1" "eth2" ⟨0, 31⟩
      rfl rfl rfl rfl⟩

/-- C3 counterexample: at the end-to-end example's input (parent block
`10.254.0.0/24`, single link `["r1:eth1", "r2:eth1"]`) the allocator pops
the pool's tail, so r1's eth1 is assigned `10.254.0.254/31` and r2's eth1
`10.254.0.255/31` — not `10.254.0.0/31` and `10.254.0.1/31` as claimed. -/
theorem C3_counterexample :
    c3run = .ok [("r1", ["interface eth1\n", " ip address 10.254.0.254/31\n"]),
      ("r2", ["interface eth1\n", " ip address 10.254.0.255/31\n"])] ∧
    c3run ≠ .ok [("r1", ["interface eth1\n", " ip address 10.254.0.0/31\n"]),
      ("r2", ["interface eth1\n", " ip address 10.254.0.1/31\n"])] := by
  constructor
  · rfl
  · decide

/-- C3 amended: parent block `10.254.0.0/24` and the single link
`["r1:eth1", "r2:eth1"]` allocate exactly one subnet — the tail of the pool,
`10.254.0.254/31` — giving r1's eth1 `10.254.0.254/31` and r2's eth1
`10.254.0.255/31`; both routers' assembled configurations contain the
interior-protocol network statement covering `10.254.0.0/16`. -/
theorem C3_end_to_end_amended :
    ∃ subs cfgs,
      generate_31_subnets c3block = .ok subs ∧
      subs.length = 128 ∧
      runLinks [["r1:eth1", "r2:eth1"]] (subs, []) = .ok (subs.dropLast, cfgs) ∧
      subs.dropLast.length = 127 ∧
      cfgs = [("r1", ["interface eth1\n", " ip address 10.254.0.254/31\n"]),
        ("r2", ["interface eth1\n", " ip address 10.254.0.255/31\n"])] ∧
      " network 10.254.0.0/16 area 0.0.0.0 \n" ∈
        (lookup (addBaseConfigAll cfgs) "r1").getD [] ∧
      " network 10.254.0.0/16 area 0.0.0.0 \n" ∈
        (lookup (addBaseConfigAll cfgs) "r2").getD [] := by
  refine ⟨(List.range 128).map (fun i => ⟨184418304 + 2 * i, 31⟩),
    [("r1", ["interface eth1\n", " ip address 10.254.0.254/31\n"]),
      ("r2", ["interface eth1\n", " ip address 10.254.0.255/31\n"])],
    ?_, ?_, ?_, ?_, rfl, ?_, ?_⟩
  · rfl
  · rfl
  · rfl
  · rfl
  · decide
  · decide

/-- C5: with the pool from a parent block that yields exactly
`N = 2^(31-p)` subnets and any well-formed topology of `N + 1` links, the
run over all the links raises `IndexError` (the SubnetExhausted of the
specification: the (N+1)-th pop hits the empty pool), while the first N
iterations consume the whole pool with the trace of consumed subnets equal
to the pool reversed and free of duplicates — no subnet is issued twice. -/
theorem C5_exhaustion (network : IPv4Network) (links : List (List String))
    (h : network.prefixLen < 31)
    (hwf : ∀ l ∈ links, wfLink l = true)
    (hlen : links.length = 2 ^ (31 - network.prefixLen) + 1) :
    ∃ subs, generate_31_subnets network = .ok subs ∧
      runLinks links (subs, []) = .error .indexError ∧
      subs.Nodup ∧
      ∃ cfgs tr,
        runLinksT (links.take (2 ^ (31 - network.prefixLen))) ((subs, []), []) =
          .ok (([], cfgs), tr) ∧
        tr = subs.reverse ∧ tr.Nodup := by
  refine ⟨(List.range (2 ^ (31 - network.prefixLen))).map
      (fun i => ⟨network.addr + 2 * i, 31⟩), ?_, ?_, ?_, ?_⟩
  · simp [generate_31_subnets, Nat.not_le.mpr h]
  · apply runLinks_exhausted links _ [] hwf
    · intro s hs
      simp only [List.mem_map] at hs
      obtain ⟨i, _, rfl⟩ := hs
      rfl
    · simp [hlen]
  · refine List.Nodup.map ?_ (List.nodup_range _)
    intro i j hij
    simp only [IPv4Network.mk.injEq] at hij
    omega
  · have hnd : ((List.range (2 ^ (31 - network.prefixLen))).map
        (fun i => (⟨network.addr + 2 * i, 31⟩ : IPv4Network))).Nodup := by
      refine List.Nodup.map ?_ (List.nodup_range _)
      intro i j hij
      simp only [IPv4Network.mk.injEq] at hij
      omega
    obtain ⟨cfgs, hT⟩ := runLinksT_all (links.take (2 ^ (31 - network.prefixLen)))
      ((List.range (2 ^ (31 - network.prefixLen))).map
        (fun i => ⟨network.addr + 2 * i, 31⟩)) [] []
      (fun l2 hl2 => hwf l2 ((List.take_sublist _ _).subset hl2))
      (by
        intro s hs
        simp only [List.mem_map] at hs
        obtain ⟨i, _, rfl⟩ := hs
        rfl)
      (by simp [hlen])
    refine ⟨cfgs, _, hT, ?_, ?_⟩
    · simp
    · simp [List.nodup_reverse]
      exact hnd

/-- Witness for C5: block `0.0.0.0/30` (exactly two /31 subnets) and three
well-formed links. -/
theorem C5_exhaustion_witness :
    (⟨0, 30⟩ : IPv4Network).prefixLen < 31 ∧
    (∀ l ∈ [["r1:eth1", "r2:eth1"], ["r1:eth2", "r3:eth1"], ["r2:eth2", "r3:eth2"]],
      wfLink l = true) ∧
    ([["r1:eth1", "r2:eth1"], ["r1:eth2", "r3:eth1"],
      ["r2:eth2", "r3:eth2"]] : List (List String)).length =
      2 ^ (31 - (⟨0, 30⟩ : IPv4Network).prefixLen) + 1 ∧
    (∃ subs, generate_31_subnets ⟨0, 30⟩ = .ok subs ∧
      runLinks [["r1:eth1", "r2:eth1"], ["r1:eth2", "r3:eth1"], ["r2:eth2", "r3:eth2"]]
        (subs, []) = .error .indexError ∧
      subs.Nodup ∧
      ∃ cfgs tr,
        runLinksT ([["r1:eth1", "r2:eth1"], ["r1:eth2", "r3:eth1"],
            ["r2:eth2", "r3:eth2"]].take (2 ^ (31 - (⟨0, 30⟩ : IPv4Network).prefixLen)))
            ((subs, []), []) =
          .ok (([], cfgs), tr) ∧
        tr = subs.reverse ∧ tr.Nodup) :=
  ⟨by decide, by decide, by decide,
    C5_exhaustion ⟨0, 30⟩
      [["r1:eth1", "r2:eth1"], ["r1:eth2", "r3:eth1"], ["r2:eth2", "r3:eth2"]]
      (by decide) (by decide) (by decide)⟩

theorem appendBgp_cons (m : RtrConfigs) (rc : String × String)
    (tl : List (String × String)) :
    appendBgp m (rc :: tl) =
      (if hasKey m rc.1 then Except.ok (appendLine m rc.1 rc.2)
       else Except.error (.keyError rc.1)).bind (fun m2 => appendBgp m2 tl) := rfl

/-- C8: if the externally supplied BGP-config mapping contains an entry
whose router is absent from the assembled router set, the assembly loop of
lines 263-264 fails with a `KeyError` naming an absent router (rather than
silently dropping the entry). -/
theorem C8_unknown_router (m : RtrConfigs) (bgp : List (String × String))
    (r t : String) (hmem : (r, t) ∈ bgp) (habs : hasKey m r = false) :
    ∃ k, appendBgp m bgp = .error (.keyError k) ∧ hasKey m k = false := by
  induction bgp generalizing m with
  | nil => cases hmem
  | cons rc tl ih =>
    rw [appendBgp_cons]
    by_cases hk : hasKey m rc.1
    · rw [if_pos hk]
      rcases List.mem_cons.mp hmem with heq | htl
      · exfalso
        have : rc.1 = r := by rw [← heq]
        rw [this, habs] at hk
        exact Bool.false_ne_true hk
      · obtain ⟨k, herr, habsk⟩ := ih htl (m := appendLine m rc.1 rc.2)
          (by rw [hasKey_appendLine]; exact habs)
        refine ⟨k, ?_, ?_⟩
        · simpa [Except.bind] using herr
        · rwa [hasKey_appendLine] at habsk
    · rw [if_neg hk]
      refine ⟨rc.1, rfl, ?_⟩
      simpa using hk

/-- Witness for C8: a config set holding only router r1 and a BGP entry for
the absent router r2. -/
theorem C8_unknown_router_witness :
    (("r2", "router bgp 65001\n") ∈ [("r2", "router bgp 65001\n")]) ∧
    hasKey [("r1", [])] "r2" = false ∧
    (∃ k, appendBgp [("r1", [])] [("r2", "router bgp 65001\n")] =
      .error (.keyError k) ∧ hasKey [("r1", [])] k = false) :=
  ⟨by decide, by decide,
    C8_unknown_router [("r1", [])] [("r2", "router bgp 65001\n")]
      "r2" "router bgp 65001\n" (by decide) (by decide)⟩

theorem lookup_addBaseConfigAll (m : RtrConfigs) (r : String) :
    lookup (addBaseConfigAll m) r = (lookup m r).map (addBaseConfig r) := by
  induction m with
  | nil => rfl
  | cons p t ih =>
    by_cases hp : p.1 = r
    · simp [addBaseConfigAll, lookup, hp]
    · simp only [addBaseConfigAll, List.map_cons, lookup, beq_iff_eq]
      rw [if_neg hp, if_neg hp]
      exact ih

theorem lookup_mem (m : RtrConfigs) (r : String) (v : List String)
    (h : lookup m r = some v) : ∃ p ∈ m, p.2 = v := by
  induction m with
  | nil => simp [lookup] at h
  | cons p t ih =>
    by_cases hp : p.1 = r
    · simp only [lookup, beq_iff_eq] at h
      rw [if_pos hp] at h
      exact ⟨p, List.mem_cons_self p t, Option.some.inj h⟩
    · simp only [lookup, beq_iff_eq] at h
      rw [if_neg hp] at h
      obtain ⟨q, hq, hv⟩ := ih h
      exact ⟨q, List.mem_cons_of_mem _ hq, hv⟩

theorem appendBgp_lookup_not_mem (bgp : List (String × String)) :
    ∀ m final r, r ∉ bgp.map Prod.fst → appendBgp m bgp = .ok final →
      lookup final r = lookup m r := by
  induction bgp with
  | nil =>
    intro m final r _ h
    have : m = final := by
      simpa [appendBgp, List.foldlM, pure, Except.pure] using h
    rw [this]
  | cons rc tl ih =>
    intro m final r hnm h
    simp only [List.map_cons, List.mem_cons, not_or] at hnm
    rw [appendBgp_cons] at h
    by_cases hk : hasKey m rc.1
    · rw [if_pos hk] at h
      have h2 : appendBgp (appendLine m rc.1 rc.2) tl = .ok final := by
        simpa [Except.bind] using h
      rw [ih _ _ _ hnm.2 h2, lookup_appendLine, if_neg hnm.1]
    · rw [if_neg hk] at h
      simp [Except.bind] at h

theorem appendBgp_lookup (bgp : List (String × String)) :
    ∀ m final r t, (bgp.map Prod.fst).Nodup → (r, t) ∈ bgp →
      appendBgp m bgp = .ok final →
      lookup final r = (lookup m r).map (fun v => v ++ [t]) := by
  induction bgp with
  | nil => intro m final r t _ hmem _; cases hmem
  | cons rc tl ih =>
    intro m final r t hnd hmem h
    rw [appendBgp_cons] at h
    by_cases hk : hasKey m rc.1
    · rw [if_pos hk] at h
      have h2 : appendBgp (appendLine m rc.1 rc.2) tl = .ok final := by
        simpa [Except.bind] using h
      simp only [List.map_cons, List.nodup_cons] at hnd
      rcases List.mem_cons.mp hmem with heq | htl
      · have hr1 : rc.1 = r := by rw [← heq]
        have hr2 : rc.2 = t := by rw [← heq]
        have hnin : r ∉ tl.map Prod.fst := by rw [← hr1]; exact hnd.1
        rw [appendBgp_lookup_not_mem tl _ _ _ hnin h2, lookup_appendLine, hr1, hr2,
          if_pos rfl]
      · have hr : r ≠ rc.1 := by
          intro hh
          exact hnd.1 (hh ▸ List.mem_map.mpr ⟨(r, t), htl, rfl⟩)
        rw [ih _ _ _ _ hnd.2 htl h2, lookup_appendLine, if_neg hr]
    · rw [if_neg hk] at h
      simp [Except.bind] at h

/-- C4: for every router in the assembled set, the final configuration-line
sequence is exactly: the no-ipv6-forwarding line, the hostname line and the
routing-defaults line (the three prepends of lines 251-253 in reverse
insertion order), then the router's interface fragments exactly as the
assignment loop appended them (a concatenation of two-line interface
blocks, in order), then the OSPF block (protocol-enable line, network
statement for the parent supernet with the fixed area, `line vty` marker),
and finally the externally supplied BGP text as the last element. -/
theorem C4_config_order (subnets : List IPv4Network) (parsed : ParsedData)
    (cfgs final : RtrConfigs) (bgp : List (String × String)) (r t : String)
    (lines : List String)
    (hgen : generate_frrouter_addressing_info subnets parsed = .ok cfgs)
    (hasm : appendBgp (addBaseConfigAll cfgs) bgp = .ok final)
    (hnd : (bgp.map Prod.fst).Nodup) (hmem : (r, t) ∈ bgp)
    (hlk : lookup final r = some lines) :
    ∃ frags ps,
      lookup cfgs r = some frags ∧ frags = intfBlocks ps ∧
      lines = ["no ipv6 forwarding \n", "hostname " ++ r ++ " \n",
          "frr defaults traditional \n"] ++ frags ++
        ["router ospf \n", " network 10.254.0.0/16 area 0.0.0.0 \n",
          "line vty \n"] ++ [t] := by
  have h1 : lookup final r = (lookup (addBaseConfigAll cfgs) r).map (fun v => v ++ [t]) :=
    appendBgp_lookup bgp _ _ _ _ hnd hmem hasm
  rw [lookup_addBaseConfigAll] at h1
  have hgood : goodCfgs cfgs := by
    unfold generate_frrouter_addressing_info at hgen
    cases hl : parsed.links with
    | none => rw [hl] at hgen; try dsimp only at hgen; simp at hgen
    | some links =>
      rw [hl] at hgen
      try dsimp only at hgen
      cases hr : runLinks links (subnets, []) with
      | error e => rw [hr] at hgen; try dsimp only at hgen; simp at hgen
      | ok st =>
        rw [hr] at hgen
        try dsimp only at hgen
        simp only [Except.ok.injEq] at hgen
        rw [← hgen]
        exact runLinks_goodCfgs links _ _ hr goodCfgs_nil
  cases hc : lookup cfgs r with
  | none =>
    rw [hc] at h1
    rw [hlk] at h1
    simp at h1
  | some frags =>
    rw [hc] at h1
    rw [hlk] at h1
    simp only [Option.map_some'] at h1
    have hlines : lines = addBaseConfig r frags ++ [t] := Option.some.inj h1
    obtain ⟨p, hpmem, hpv⟩ := lookup_mem cfgs r frags hc
    obtain ⟨ps, hps⟩ := hgood p hpmem
    refine ⟨frags, ps, rfl, ?_, ?_⟩
    · rw [← hpv]
      exact hps
    · rw [hlines]
      simp [addBaseConfig]

/-- Witness for C4: the one-link pipeline on pool `[0.0.0.0/31]` with BGP
entries for both routers; r1's assembled sequence is base lines, interface
block, OSPF block, BGP text. -/
theorem C4_config_order_witness :
    ∃ frags ps,
      lookup [("r1", ["interface eth1\n", " ip address 0.0.0.0/31\n"]),
        ("r2", ["interface eth1\n", " ip address 0.0.0.1/31\n"])] "r1" = some frags ∧
      frags = intfBlocks ps ∧
      ["no ipv6 forwarding \n", "hostname r1 \n", "frr defaults traditional \n",
       "interface eth1\n", " ip address 0.0.0.0/31\n", "router ospf \n",
       " network 10.254.0.0/16 area 0.0.0.0 \n", "line vty \n",
       "router bgp 65000\n"] =
        ["no ipv6 forwarding \n", "hostname " ++ "r1" ++ " \n",
            "frr defaults traditional \n"] ++ frags ++
          ["router ospf \n", " network 10.254.0.0/16 area 0.0.0.0 \n",
            "line vty \n"] ++ ["router bgp 65000\n"] :=
  C4_config_order [⟨0, 31⟩] ⟨some [["r1:eth1", "r2:eth1"]]⟩
    [("r1", ["interface eth1\n", " ip address 0.0.0.0/31\n"]),
      ("r2", ["interface eth1\n", " ip address 0.0.0.1/31\n"])]
    [("r1",
      ["no ipv6 forwarding \n", "hostname r1 \n", "frr defaults traditional \n",
       "interface eth1\n", " ip address 0.0.0.0/31\n", "router ospf \n",
       " network 10.254.0.0/16 area 0.0.0.0 \n", "line vty \n",
       "router bgp 65000\n"]),
     ("r2",
      ["no ipv6 forwarding \n", "hostname r2 \n", "frr defaults traditional \n",
       "interface eth1\n", " ip address 0.0.0.1/31\n", "router ospf \n",
       " network 10.254.0.0/16 area 0.0.0.0 \n", "line vty \n",
       "router bgp 65001\n"])]
    [("r1", "router bgp 65000\n"), ("r2", "router bgp 65001\n")]
    "r1" "router bgp 65000\n"
    ["no ipv6 forwarding \n", "hostname r1 \n", "frr defaults traditional \n",
     "interface eth1\n", " ip address 0.0.0.0/31\n", "router ospf \n",
     " network 10.254.0.0/16 area 0.0.0.0 \n", "line vty \n",
     "router bgp 65000\n"]
    rfl rfl (by decide) (by decide) rfl
